import Mathlib

/-!
# Verification of the `endiantype` crate (src/lib.rs)

The crate provides two endian-tagged wrapper types, `LittleEndian<T>` and
`BigEndian<T>`, over the twelve primitive Rust integer kinds
(`u8 … u128, usize, i8 … i128, isize`), together with conversions
(`from_native`, `new`, `to_native`, cross-endian `From`) and a cross-kind
operator layer (`PartialEq`, `PartialOrd`, `BitAnd`, `BitOr`, `BitXor`,
`Add`, `Sub`).

## Embedding choices

* A machine integer of a given kind is represented by its *bit pattern*,
  a `Nat` strictly below `256 ^ w`, where `w` is the width in bytes
  (`w ∈ {1, 2, 4, 8, 16}` for the fixed-width kinds and the platform word
  size for `usize`/`isize`; all theorems quantify over arbitrary `w`, so
  every supported kind is covered).
* Signedness only matters for comparisons; it is a separate parameter
  `Signedness`, and `interp` maps a pattern to the mathematical integer it
  denotes (two's complement for the signed kinds).
* The target platform's byte order (`#[cfg(target_endian = …)]` in the
  source) is an explicit parameter `Endianness`; theorems quantify over it,
  covering both little- and big-endian targets.
* Rust's `swap_bytes` is modelled as reversal of the base-256 digit list;
  `to_be`/`to_le` follow Rust's definitions (identity when the target's
  order already matches, byte swap otherwise).
* Wrapping `+`/`-` on patterns is arithmetic modulo `256 ^ w`, which is the
  two's-complement-correct behaviour for both signed and unsigned kinds.
-/

namespace Endiantype

/-- The byte order of the target platform (`#[cfg(target_endian = "...")]`). -/
inductive Endianness where
  | little
  | big
deriving DecidableEq

/-- Whether an integer kind is signed (`i8`…`isize`) or unsigned (`u8`…`usize`). -/
inductive Signedness where
  | unsigned
  | signed
deriving DecidableEq

/-- The `w` base-256 digits of `x`, least significant first: the little-endian
byte decomposition of a `w`-byte bit pattern. -/
def leBytes : Nat → Nat → List Nat
  | 0, _ => []
  | w + 1, x => x % 256 :: leBytes w (x / 256)

/-- Recompose a little-endian byte list into the bit pattern it denotes. -/
def fromLeBytes : List Nat → Nat
  | [] => 0
  | b :: bs => b + 256 * fromLeBytes bs

/-- Rust's `<iN/uN>::swap_bytes`: reverse the byte order of a `w`-byte pattern. -/
def swap_bytes (w x : Nat) : Nat :=
  fromLeBytes ((leBytes w x).reverse)

/-- Rust's `<T>::to_be`: identity on big-endian targets, byte swap on
little-endian targets. -/
def to_be (p : Endianness) (w x : Nat) : Nat :=
  match p with
  | .big => x
  | .little => swap_bytes w x

/-- Rust's `<T>::to_le`: identity on little-endian targets, byte swap on
big-endian targets. -/
def to_le (p : Endianness) (w x : Nat) : Nat :=
  match p with
  | .little => x
  | .big => swap_bytes w x

theorem leBytes_length (w x : Nat) : (leBytes w x).length = w := by
  induction w generalizing x with
  | zero => rfl
  | succ w ih => simp [leBytes, ih]

theorem leBytes_mem_lt (w x : Nat) : ∀ b ∈ leBytes w x, b < 256 := by
  induction w generalizing x with
  | zero => intro b hb; simp [leBytes] at hb
  | succ w ih =>
    intro b hb
    simp only [leBytes, List.mem_cons] at hb
    rcases hb with h | h
    · subst h; exact Nat.mod_lt _ (by norm_num)
    · exact ih _ b h

theorem fromLeBytes_lt (l : List Nat) (h : ∀ b ∈ l, b < 256) :
    fromLeBytes l < 256 ^ l.length := by
  induction l with
  | nil => simp [fromLeBytes]
  | cons b bs ih =>
    have hb : b < 256 := h b (List.mem_cons_self b bs)
    have hbs : fromLeBytes bs < 256 ^ bs.length :=
      ih fun c hc => h c (List.mem_cons_of_mem b hc)
    have hmul : 256 * (fromLeBytes bs + 1) ≤ 256 * 256 ^ bs.length :=
      Nat.mul_le_mul_left 256 hbs
    simp only [fromLeBytes, List.length_cons, pow_succ]
    calc b + 256 * fromLeBytes bs < 256 * (fromLeBytes bs + 1) := by omega
    _ ≤ 256 * 256 ^ bs.length := hmul
    _ = 256 ^ bs.length * 256 := Nat.mul_comm _ _

theorem fromLeBytes_leBytes (w x : Nat) (h : x < 256 ^ w) :
    fromLeBytes (leBytes w x) = x := by
  induction w generalizing x with
  | zero => simp at h; simp [h, leBytes, fromLeBytes]
  | succ w ih =>
    have hdiv : x / 256 < 256 ^ w := by
      rw [Nat.div_lt_iff_lt_mul (by norm_num)]
      calc x < 256 ^ (w + 1) := h
      _ = 256 ^ w * 256 := pow_succ 256 w
    simp only [leBytes, fromLeBytes, ih (x / 256) hdiv]
    omega

theorem leBytes_fromLeBytes (l : List Nat) (h : ∀ b ∈ l, b < 256) :
    leBytes l.length (fromLeBytes l) = l := by
  induction l with
  | nil => rfl
  | cons b bs ih =>
    have hb : b < 256 := h b (List.mem_cons_self b bs)
    have hmod : (b + 256 * fromLeBytes bs) % 256 = b := by omega
    have hdiv : (b + 256 * fromLeBytes bs) / 256 = fromLeBytes bs := by omega
    simp only [List.length_cons, fromLeBytes, leBytes, hmod, hdiv]
    rw [ih fun c hc => h c (List.mem_cons_of_mem b hc)]

theorem swap_bytes_lt (w x : Nat) : swap_bytes w x < 256 ^ w := by
  have := fromLeBytes_lt ((leBytes w x).reverse)
    (fun b hb => leBytes_mem_lt w x b (List.mem_reverse.mp hb))
  simpa [swap_bytes, leBytes_length] using this

theorem swap_bytes_swap_bytes (w x : Nat) (h : x < 256 ^ w) :
    swap_bytes w (swap_bytes w x) = x := by
  unfold swap_bytes
  have hlen : (leBytes w x).reverse.length = w := by
    simp [leBytes_length]
  have hmem : ∀ b ∈ (leBytes w x).reverse, b < 256 :=
    fun b hb => leBytes_mem_lt w x b (List.mem_reverse.mp hb)
  have hstep : leBytes w (fromLeBytes ((leBytes w x).reverse)) = (leBytes w x).reverse := by
    have := leBytes_fromLeBytes ((leBytes w x).reverse) hmem
    rwa [hlen] at this
  rw [hstep, List.reverse_reverse, fromLeBytes_leBytes w x h]

theorem to_be_lt (p : Endianness) (w x : Nat) (h : x < 256 ^ w) :
    to_be p w x < 256 ^ w := by
  cases p <;> simp [to_be, swap_bytes_lt, h]

theorem to_le_lt (p : Endianness) (w x : Nat) (h : x < 256 ^ w) :
    to_le p w x < 256 ^ w := by
  cases p <;> simp [to_le, swap_bytes_lt, h]

/-- `#[repr(transparent)] pub struct BigEndian<T>(T);` — a single stored `T`
bit pattern (`w` bytes, hence `< 256 ^ w`), guaranteed big-endian encoded. -/
structure BigEndian (w : Nat) where
  val : Nat
  lt : val < 256 ^ w

/-- `#[repr(transparent)] pub struct LittleEndian<T>(T);` — a single stored `T`
bit pattern (`w` bytes, hence `< 256 ^ w`), guaranteed little-endian encoded. -/
structure LittleEndian (w : Nat) where
  val : Nat
  lt : val < 256 ^ w

theorem BigEndian.ext_val_big {w : Nat} {a b : BigEndian w} (h : a.val = b.val) :
    a = b := by
  cases a; cases b; simp_all

theorem LittleEndian.ext_val_little {w : Nat} {a b : LittleEndian w} (h : a.val = b.val) :
    a = b := by
  cases a; cases b; simp_all

/-- `BigEndian::from_native(data: T)`: stores `data.to_be()`. -/
def BigEndian.from_native (p : Endianness) (w data : Nat) (h : data < 256 ^ w) :
    BigEndian w :=
  ⟨to_be p w data, to_be_lt p w data h⟩

/-- `BigEndian::new(data: T)`: stores `data` verbatim, no transformation. -/
def BigEndian.new (w data : Nat) (h : data < 256 ^ w) : BigEndian w :=
  ⟨data, h⟩

/-- `BigEndian::to_native`: the stored bits on a big-endian target,
`swap_bytes` of the stored bits on a little-endian target. -/
def BigEndian.to_native (p : Endianness) {w : Nat} (a : BigEndian w) : Nat :=
  match p with
  | .big => a.val
  | .little => swap_bytes w a.val

/-- `LittleEndian::from_native(data: T)`: stores `data.to_le()`. -/
def LittleEndian.from_native (p : Endianness) (w data : Nat) (h : data < 256 ^ w) :
    LittleEndian w :=
  ⟨to_le p w data, to_le_lt p w data h⟩

/-- `LittleEndian::new(data: T)`: stores `data` verbatim, no transformation. -/
def LittleEndian.new (w data : Nat) (h : data < 256 ^ w) : LittleEndian w :=
  ⟨data, h⟩

/-- `LittleEndian::to_native`: `swap_bytes` of the stored bits on a big-endian
target, the stored bits on a little-endian target. -/
def LittleEndian.to_native (p : Endianness) {w : Nat} (a : LittleEndian w) : Nat :=
  match p with
  | .big => swap_bytes w a.val
  | .little => a.val

/-- `impl From<LittleEndian<T>> for BigEndian<T>`: `Self(data.0.swap_bytes())`. -/
def BigEndian.from_little {w : Nat} (data : LittleEndian w) : BigEndian w :=
  ⟨swap_bytes w data.val, swap_bytes_lt w data.val⟩

/-- `impl From<BigEndian<T>> for LittleEndian<T>`: `Self(data.0.swap_bytes())`. -/
def LittleEndian.from_big {w : Nat} (data : BigEndian w) : LittleEndian w :=
  ⟨swap_bytes w data.val, swap_bytes_lt w data.val⟩

/-- The in-memory bytes, in increasing address order, of a stored `T` bit
pattern `x` on a platform with native byte order `p` (the wrapper structs are
`#[repr(transparent)]`, so a wrapper's raw bytes are its field's bytes). -/
def memBytes (p : Endianness) (w x : Nat) : List Nat :=
  match p with
  | .little => leBytes w x
  | .big => (leBytes w x).reverse

/-- The mathematical integer denoted by a `w`-byte bit pattern `x` for a kind
of signedness `s`: plain value for unsigned kinds, two's complement for
signed kinds. -/
def interp (s : Signedness) (w x : Nat) : Int :=
  match s with
  | .unsigned => (x : Int)
  | .signed => if 2 * x < 256 ^ w then (x : Int) else (x : Int) - (256 ^ w : Nat)

/-- Rust's primitive `PartialEq::eq` on a `w`-byte integer kind of
signedness `s`, acting on bit patterns. -/
def prim_eq (s : Signedness) (w x y : Nat) : Bool :=
  interp s w x == interp s w y

/-- Rust's primitive `PartialOrd::partial_cmp` on a `w`-byte integer kind of
signedness `s`, acting on bit patterns: always `some` of the total order. -/
def prim_pcmp (s : Signedness) (w x y : Nat) : Option Ordering :=
  some (compare (interp s w x) (interp s w y))

/-- The five value-producing operators of the crate. -/
inductive PrimOp where
  | band
  | bor
  | bxor
  | add
  | sub
deriving DecidableEq

/-- Rust's primitive operator on `w`-byte bit patterns: bitwise ops act on the
bits, `+`/`-` wrap modulo `256 ^ w` (two's-complement-correct for both signed
and unsigned kinds). -/
def prim_op (op : PrimOp) (w x y : Nat) : Nat :=
  match op with
  | .band => x &&& y
  | .bor => x ||| y
  | .bxor => x ^^^ y
  | .add => (x + y) % 256 ^ w
  | .sub => (x + 256 ^ w - y) % 256 ^ w

theorem pow256_eq_two_pow (w : Nat) : (256 : Nat) ^ w = 2 ^ (8 * w) := by
  rw [show (256 : Nat) = 2 ^ 8 from rfl, ← pow_mul]

theorem prim_op_lt (op : PrimOp) (w x y : Nat) (hx : x < 256 ^ w)
    (hy : y < 256 ^ w) : prim_op op w x y < 256 ^ w := by
  have hpos : 0 < 256 ^ w := Nat.pos_pow_of_pos w (by norm_num)
  cases op with
  | band =>
    rw [pow256_eq_two_pow] at hx hy ⊢
    exact Nat.bitwise_lt hx hy
  | bor =>
    rw [pow256_eq_two_pow] at hx hy ⊢
    exact Nat.bitwise_lt hx hy
  | bxor =>
    rw [pow256_eq_two_pow] at hx hy ⊢
    exact Nat.bitwise_lt hx hy
  | add => exact Nat.mod_lt _ hpos
  | sub => exact Nat.mod_lt _ hpos

theorem BigEndian.to_native_lt_big (p : Endianness) {w : Nat} (a : BigEndian w) :
    a.to_native p < 256 ^ w := by
  cases p
  · exact swap_bytes_lt w a.val
  · exact a.lt

theorem LittleEndian.to_native_lt_little (p : Endianness) {w : Nat} (a : LittleEndian w) :
    a.to_native p < 256 ^ w := by
  cases p
  · exact a.lt
  · exact swap_bytes_lt w a.val

/-! ## Cross-kind operator layer

One definition per generated `impl` of the source macros
`impl_endian_op_each`, `impl_endian_op_native`, `impl_endian_cmp_each`,
`impl_endian_cmp_native`, parameterized by the operator (`PrimOp`), the
platform order `p` and — for comparisons — the kind's signedness `s`,
exactly as the macros are parameterized by `$trait_func_name`. -/

/-- `impl Add<BigEndian<T>> for BigEndian<T>` (and the other four operator
traits): `Self::from_native(self.to_native().op(rhs.to_native()))`. -/
def BigEndian.op_big (p : Endianness) (op : PrimOp) {w : Nat}
    (a rhs : BigEndian w) : BigEndian w :=
  BigEndian.from_native p w (prim_op op w (a.to_native p) (rhs.to_native p))
    (prim_op_lt op w _ _ (BigEndian.to_native_lt_big p a) (BigEndian.to_native_lt_big p rhs))

/-- `impl Add<LittleEndian<T>> for BigEndian<T>`: output is `BigEndian<T>`. -/
def BigEndian.op_little (p : Endianness) (op : PrimOp) {w : Nat}
    (a : BigEndian w) (rhs : LittleEndian w) : BigEndian w :=
  BigEndian.from_native p w (prim_op op w (a.to_native p) (rhs.to_native p))
    (prim_op_lt op w _ _ (BigEndian.to_native_lt_big p a) (LittleEndian.to_native_lt_little p rhs))

/-- `impl Add<LittleEndian<T>> for LittleEndian<T>`. -/
def LittleEndian.op_little (p : Endianness) (op : PrimOp) {w : Nat}
    (a rhs : LittleEndian w) : LittleEndian w :=
  LittleEndian.from_native p w (prim_op op w (a.to_native p) (rhs.to_native p))
    (prim_op_lt op w _ _ (LittleEndian.to_native_lt_little p a) (LittleEndian.to_native_lt_little p rhs))

/-- `impl Add<BigEndian<T>> for LittleEndian<T>`: output is `LittleEndian<T>`. -/
def LittleEndian.op_big (p : Endianness) (op : PrimOp) {w : Nat}
    (a : LittleEndian w) (rhs : BigEndian w) : LittleEndian w :=
  LittleEndian.from_native p w (prim_op op w (a.to_native p) (rhs.to_native p))
    (prim_op_lt op w _ _ (LittleEndian.to_native_lt_little p a) (BigEndian.to_native_lt_big p rhs))

/-- `impl Add<T> for BigEndian<T>`:
`Self::from_native(self.to_native().op(rhs))`. -/
def BigEndian.op_nat (p : Endianness) (op : PrimOp) {w : Nat}
    (a : BigEndian w) (rhs : Nat) (h : rhs < 256 ^ w) : BigEndian w :=
  BigEndian.from_native p w (prim_op op w (a.to_native p) rhs)
    (prim_op_lt op w _ _ (BigEndian.to_native_lt_big p a) h)

/-- `impl Add<T> for LittleEndian<T>`. -/
def LittleEndian.op_nat (p : Endianness) (op : PrimOp) {w : Nat}
    (a : LittleEndian w) (rhs : Nat) (h : rhs < 256 ^ w) : LittleEndian w :=
  LittleEndian.from_native p w (prim_op op w (a.to_native p) rhs)
    (prim_op_lt op w _ _ (LittleEndian.to_native_lt_little p a) h)

/-- `impl Add<BigEndian<T>> for T`: `self.op(rhs.to_native())`, output is
native `T` — no re-encoding. -/
def nat_op_big (p : Endianness) (op : PrimOp) {w : Nat}
    (lhs : Nat) (rhs : BigEndian w) : Nat :=
  prim_op op w lhs (rhs.to_native p)

/-- `impl Add<LittleEndian<T>> for T`: output is native `T` — no re-encoding. -/
def nat_op_little (p : Endianness) (op : PrimOp) {w : Nat}
    (lhs : Nat) (rhs : LittleEndian w) : Nat :=
  prim_op op w lhs (rhs.to_native p)

/-- `impl PartialEq<LittleEndian<T>> for BigEndian<T>`:
`self.to_native().eq(&rhs.to_native())`. -/
def BigEndian.eq_little (p : Endianness) (s : Signedness) {w : Nat}
    (a : BigEndian w) (rhs : LittleEndian w) : Bool :=
  prim_eq s w (a.to_native p) (rhs.to_native p)

/-- `impl PartialEq<BigEndian<T>> for LittleEndian<T>`. -/
def LittleEndian.eq_big (p : Endianness) (s : Signedness) {w : Nat}
    (a : LittleEndian w) (rhs : BigEndian w) : Bool :=
  prim_eq s w (a.to_native p) (rhs.to_native p)

/-- `impl PartialEq<LittleEndian<T>> for LittleEndian<T>`. -/
def LittleEndian.eq_little (p : Endianness) (s : Signedness) {w : Nat}
    (a rhs : LittleEndian w) : Bool :=
  prim_eq s w (a.to_native p) (rhs.to_native p)

/-- `impl PartialEq<BigEndian<T>> for BigEndian<T>`. -/
def BigEndian.eq_big (p : Endianness) (s : Signedness) {w : Nat}
    (a rhs : BigEndian w) : Bool :=
  prim_eq s w (a.to_native p) (rhs.to_native p)

/-- `impl PartialEq<T> for BigEndian<T>`: `self.to_native().eq(rhs)`. -/
def BigEndian.eq_nat (p : Endianness) (s : Signedness) {w : Nat}
    (a : BigEndian w) (rhs : Nat) : Bool :=
  prim_eq s w (a.to_native p) rhs

/-- `impl PartialEq<BigEndian<T>> for T`: `self.eq(&rhs.to_native())`. -/
def nat_eq_big (p : Endianness) (s : Signedness) {w : Nat}
    (lhs : Nat) (rhs : BigEndian w) : Bool :=
  prim_eq s w lhs (rhs.to_native p)

/-- `impl PartialEq<T> for LittleEndian<T>`. -/
def LittleEndian.eq_nat (p : Endianness) (s : Signedness) {w : Nat}
    (a : LittleEndian w) (rhs : Nat) : Bool :=
  prim_eq s w (a.to_native p) rhs

/-- `impl PartialEq<LittleEndian<T>> for T`. -/
def nat_eq_little (p : Endianness) (s : Signedness) {w : Nat}
    (lhs : Nat) (rhs : LittleEndian w) : Bool :=
  prim_eq s w lhs (rhs.to_native p)

/-- `impl PartialOrd<LittleEndian<T>> for BigEndian<T>` (Rust's
`partial_cmp`): `self.to_native().partial_cmp(&rhs.to_native())`. -/
def BigEndian.pcmp_little (p : Endianness) (s : Signedness) {w : Nat}
    (a : BigEndian w) (rhs : LittleEndian w) : Option Ordering :=
  prim_pcmp s w (a.to_native p) (rhs.to_native p)

/-- `impl PartialOrd<BigEndian<T>> for LittleEndian<T>`. -/
def LittleEndian.pcmp_big (p : Endianness) (s : Signedness) {w : Nat}
    (a : LittleEndian w) (rhs : BigEndian w) : Option Ordering :=
  prim_pcmp s w (a.to_native p) (rhs.to_native p)

/-- `impl PartialOrd<LittleEndian<T>> for LittleEndian<T>`. -/
def LittleEndian.pcmp_little (p : Endianness) (s : Signedness) {w : Nat}
    (a rhs : LittleEndian w) : Option Ordering :=
  prim_pcmp s w (a.to_native p) (rhs.to_native p)

/-- `impl PartialOrd<BigEndian<T>> for BigEndian<T>`. -/
def BigEndian.pcmp_big (p : Endianness) (s : Signedness) {w : Nat}
    (a rhs : BigEndian w) : Option Ordering :=
  prim_pcmp s w (a.to_native p) (rhs.to_native p)

/-- `impl PartialOrd<T> for BigEndian<T>`. -/
def BigEndian.pcmp_nat (p : Endianness) (s : Signedness) {w : Nat}
    (a : BigEndian w) (rhs : Nat) : Option Ordering :=
  prim_pcmp s w (a.to_native p) rhs

/-- `impl PartialOrd<BigEndian<T>> for T`. -/
def nat_pcmp_big (p : Endianness) (s : Signedness) {w : Nat}
    (lhs : Nat) (rhs : BigEndian w) : Option Ordering :=
  prim_pcmp s w lhs (rhs.to_native p)

/-- `impl PartialOrd<T> for LittleEndian<T>`. -/
def LittleEndian.pcmp_nat (p : Endianness) (s : Signedness) {w : Nat}
    (a : LittleEndian w) (rhs : Nat) : Option Ordering :=
  prim_pcmp s w (a.to_native p) rhs

/-- `impl PartialOrd<LittleEndian<T>> for T`. -/
def nat_pcmp_little (p : Endianness) (s : Signedness) {w : Nat}
    (lhs : Nat) (rhs : LittleEndian w) : Option Ordering :=
  prim_pcmp s w lhs (rhs.to_native p)

/-! ## Core round-trip lemmas -/

theorem BigEndian.to_native_from_native_big (p : Endianness) (w x : Nat)
    (h : x < 256 ^ w) : (BigEndian.from_native p w x h).to_native p = x := by
  cases p
  · exact swap_bytes_swap_bytes w x h
  · rfl

theorem LittleEndian.to_native_from_native_little (p : Endianness) (w x : Nat)
    (h : x < 256 ^ w) : (LittleEndian.from_native p w x h).to_native p = x := by
  cases p
  · rfl
  · exact swap_bytes_swap_bytes w x h

theorem BigEndian.from_native_to_native_big (p : Endianness) {w : Nat}
    (a : BigEndian w) :
    BigEndian.from_native p w (a.to_native p) (BigEndian.to_native_lt_big p a) = a := by
  apply BigEndian.ext_val_big
  cases p
  · exact swap_bytes_swap_bytes w a.val a.lt
  · rfl

theorem LittleEndian.from_native_to_native_little (p : Endianness) {w : Nat}
    (a : LittleEndian w) :
    LittleEndian.from_native p w (a.to_native p) (LittleEndian.to_native_lt_little p a) = a := by
  apply LittleEndian.ext_val_little
  cases p
  · rfl
  · exact swap_bytes_swap_bytes w a.val a.lt

theorem BigEndian.from_native_congr_big (p : Endianness) {w x y : Nat}
    (hxy : x = y) (h1 : x < 256 ^ w) (h2 : y < 256 ^ w) :
    BigEndian.from_native p w x h1 = BigEndian.from_native p w y h2 := by
  subst hxy; rfl

theorem LittleEndian.from_native_congr_little (p : Endianness) {w x y : Nat}
    (hxy : x = y) (h1 : x < 256 ^ w) (h2 : y < 256 ^ w) :
    LittleEndian.from_native p w x h1 = LittleEndian.from_native p w y h2 := by
  subst hxy; rfl

theorem BigEndian.op_big_to_native_big (p : Endianness) (op : PrimOp) {w : Nat}
    (a rhs : BigEndian w) :
    (a.op_big p op rhs).to_native p = prim_op op w (a.to_native p) (rhs.to_native p) :=
  BigEndian.to_native_from_native_big p w _ _

theorem BigEndian.op_little_to_native_big (p : Endianness) (op : PrimOp) {w : Nat}
    (a : BigEndian w) (rhs : LittleEndian w) :
    (a.op_little p op rhs).to_native p = prim_op op w (a.to_native p) (rhs.to_native p) :=
  BigEndian.to_native_from_native_big p w _ _

theorem LittleEndian.op_little_to_native_little (p : Endianness) (op : PrimOp) {w : Nat}
    (a rhs : LittleEndian w) :
    (a.op_little p op rhs).to_native p = prim_op op w (a.to_native p) (rhs.to_native p) :=
  LittleEndian.to_native_from_native_little p w _ _

theorem LittleEndian.op_big_to_native_little (p : Endianness) (op : PrimOp) {w : Nat}
    (a : LittleEndian w) (rhs : BigEndian w) :
    (a.op_big p op rhs).to_native p = prim_op op w (a.to_native p) (rhs.to_native p) :=
  LittleEndian.to_native_from_native_little p w _ _

theorem BigEndian.op_nat_to_native_big (p : Endianness) (op : PrimOp) {w : Nat}
    (a : BigEndian w) (rhs : Nat) (h : rhs < 256 ^ w) :
    (a.op_nat p op rhs h).to_native p = prim_op op w (a.to_native p) rhs :=
  BigEndian.to_native_from_native_big p w _ _

theorem LittleEndian.op_nat_to_native_little (p : Endianness) (op : PrimOp) {w : Nat}
    (a : LittleEndian w) (rhs : Nat) (h : rhs < 256 ^ w) :
    (a.op_nat p op rhs h).to_native p = prim_op op w (a.to_native p) rhs :=
  LittleEndian.to_native_from_native_little p w _ _

theorem deadbeef_lt : (0xDEADBEEF : Nat) < 256 ^ 4 := by norm_num

theorem BigEndian.val_from_native_big (p : Endianness) (w x : Nat) (h : x < 256 ^ w) :
    (BigEndian.from_native p w x h).val = to_be p w x := rfl

theorem LittleEndian.val_from_native_little (p : Endianness) (w x : Nat) (h : x < 256 ^ w) :
    (LittleEndian.from_native p w x h).val = to_le p w x := rfl

theorem leBytes_swap_bytes (w x : Nat) :
    leBytes w (swap_bytes w x) = (leBytes w x).reverse := by
  have hmem : ∀ b ∈ (leBytes w x).reverse, b < 256 :=
    fun b hb => leBytes_mem_lt w x b (List.mem_reverse.mp hb)
  have := leBytes_fromLeBytes ((leBytes w x).reverse) hmem
  rwa [List.length_reverse, leBytes_length] at this

/-! ## Claim theorems -/

/-- C1: for every supported integer type `T` (any byte width `w`), every value
`x` of `T`, both wrapper variants, and both little- and big-endian target
platforms, `to_native(from_native(x)) == x`. -/
theorem C1_from_native_round_trip (p : Endianness) (w x : Nat)
    (hx : x < 256 ^ w) :
    (BigEndian.from_native p w x hx).to_native p = x ∧
    (LittleEndian.from_native p w x hx).to_native p = x :=
  ⟨BigEndian.to_native_from_native_big p w x hx,
   LittleEndian.to_native_from_native_little p w x hx⟩

/-- Witness for C1 at `w = 4`, `x = 0xDEADBEEF`, little-endian platform. -/
theorem C1_from_native_round_trip_witness :
    (BigEndian.from_native .little 4 0xDEADBEEF deadbeef_lt).to_native .little
      = 0xDEADBEEF ∧
    (LittleEndian.from_native .little 4 0xDEADBEEF deadbeef_lt).to_native .little
      = 0xDEADBEEF :=
  C1_from_native_round_trip .little 4 0xDEADBEEF deadbeef_lt

/-- C5: converting a little-endian wrapper to the big-endian wrapper and back
(and symmetrically big→little→big) reproduces the original stored bit pattern
exactly, for every width `w`. -/
theorem C5_cross_endian_round_trip (w : Nat) (a : LittleEndian w)
    (b : BigEndian w) :
    LittleEndian.from_big (BigEndian.from_little a) = a ∧
    BigEndian.from_little (LittleEndian.from_big b) = b :=
  ⟨LittleEndian.ext_val_little (swap_bytes_swap_bytes w a.val a.lt),
   BigEndian.ext_val_big (swap_bytes_swap_bytes w b.val b.lt)⟩

/-- C6: the direct wrapper→opposite-wrapper conversion (byte reversal of the
stored bits) coincides with decode-to-native-then-re-encode, and converting a
wrapper to native and back into its own order is the identity — so
native-then-order-Y always equals direct-to-order-Y, on both platforms. -/
theorem C6_convert_via_native (p : Endianness) (w : Nat) (a : LittleEndian w)
    (b : BigEndian w) :
    BigEndian.from_little a
      = BigEndian.from_native p w (a.to_native p) (LittleEndian.to_native_lt_little p a) ∧
    LittleEndian.from_big b
      = LittleEndian.from_native p w (b.to_native p) (BigEndian.to_native_lt_big p b) ∧
    LittleEndian.from_native p w (a.to_native p) (LittleEndian.to_native_lt_little p a) = a ∧
    BigEndian.from_native p w (b.to_native p) (BigEndian.to_native_lt_big p b) = b := by
  refine ⟨?_, ?_, LittleEndian.from_native_to_native_little p a,
    BigEndian.from_native_to_native_big p b⟩
  · apply BigEndian.ext_val_big
    cases p <;> rfl
  · apply LittleEndian.ext_val_little
    cases p <;> rfl

/-- C7: `new(raw)` stores `raw` verbatim for every input, with no
transformation and no validation; and when the supplied pattern is actually
encoded in the opposite byte order of an intended value `x`, `to_native`
returns `swap_bytes x` — the byte-reversal of the intended value — instead of
raising any error, on both platforms. -/
theorem C7_new_verbatim (p : Endianness) (w raw x : Nat)
    (hraw : raw < 256 ^ w) (hx : x < 256 ^ w) :
    (BigEndian.new w raw hraw).val = raw ∧
    (LittleEndian.new w raw hraw).val = raw ∧
    (BigEndian.new w (to_le p w x) (to_le_lt p w x hx)).to_native p
      = swap_bytes w x ∧
    (LittleEndian.new w (to_be p w x) (to_be_lt p w x hx)).to_native p
      = swap_bytes w x := by
  refine ⟨rfl, rfl, ?_, ?_⟩ <;> cases p <;> rfl

/-- Witness for C7 at `w = 2`, `raw = x = 0x1234`, little-endian platform:
the stored pattern is untouched and the misused constructor yields the
byte-reversed value `0x3412`. -/
theorem C7_new_verbatim_witness :
    (BigEndian.new 2 0x1234 (by norm_num)).val = 0x1234 ∧
    (LittleEndian.new 2 0x1234 (by norm_num)).val = 0x1234 ∧
    (BigEndian.new 2 (to_le .little 2 0x1234)
      (to_le_lt .little 2 0x1234 (by norm_num))).to_native .little = 0x3412 ∧
    (LittleEndian.new 2 (to_be .little 2 0x1234)
      (to_be_lt .little 2 0x1234 (by norm_num))).to_native .little = 0x3412 := by
  obtain ⟨h1, h2, h3, h4⟩ :=
    C7_new_verbatim .little 2 0x1234 0x1234 (by norm_num) (by norm_num)
  refine ⟨h1, h2, ?_, ?_⟩
  · rw [h3]; decide
  · rw [h4]; decide

/-- C10: for every pairing of operands with at least one wrapper, on both
platforms and for signed and unsigned kinds alike, the ordered-compare
operation (`partial_cmp`) always returns a definite `some` ordering, never
the incomparable outcome `none`. -/
theorem C10_pcmp_never_none (p : Endianness) (s : Signedness) (w : Nat)
    (a : BigEndian w) (b : LittleEndian w) (x : Nat) :
    (a.pcmp_little p s b).isSome = true ∧
    (b.pcmp_big p s a).isSome = true ∧
    (b.pcmp_little p s b).isSome = true ∧
    (a.pcmp_big p s a).isSome = true ∧
    (a.pcmp_nat p s x).isSome = true ∧
    (nat_pcmp_big p s x a).isSome = true ∧
    (b.pcmp_nat p s x).isSome = true ∧
    (nat_pcmp_little p s x b).isSome = true :=
  ⟨rfl, rfl, rfl, rfl, rfl, rfl, rfl, rfl⟩

/-- C2: for every operator in {AND, OR, XOR, add, sub}, every width, every
pairing of operands with at least one wrapper, and both platforms: the
operator decodes both operands to native order, applies the primitive
operator, and — when the left operand is a wrapper — re-encodes the result in
the *left* operand's byte order (so the result decodes to the primitive
result); when the left operand is native the result is the bare native value
with no re-encoding. -/
theorem C2_operator_semantics (p : Endianness) (op : PrimOp) (w x y : Nat)
    (hx : x < 256 ^ w) (hy : y < 256 ^ w) :
    ((BigEndian.from_native p w x hx).op_big p op (BigEndian.from_native p w y hy)
      = BigEndian.from_native p w (prim_op op w x y) (prim_op_lt op w x y hx hy) ∧
     ((BigEndian.from_native p w x hx).op_big p op
       (BigEndian.from_native p w y hy)).to_native p = prim_op op w x y) ∧
    ((LittleEndian.from_native p w x hx).op_little p op (LittleEndian.from_native p w y hy)
      = LittleEndian.from_native p w (prim_op op w x y) (prim_op_lt op w x y hx hy) ∧
     ((LittleEndian.from_native p w x hx).op_little p op
       (LittleEndian.from_native p w y hy)).to_native p = prim_op op w x y) ∧
    ((BigEndian.from_native p w x hx).op_little p op (LittleEndian.from_native p w y hy)
      = BigEndian.from_native p w (prim_op op w x y) (prim_op_lt op w x y hx hy) ∧
     ((BigEndian.from_native p w x hx).op_little p op
       (LittleEndian.from_native p w y hy)).to_native p = prim_op op w x y) ∧
    ((LittleEndian.from_native p w x hx).op_big p op (BigEndian.from_native p w y hy)
      = LittleEndian.from_native p w (prim_op op w x y) (prim_op_lt op w x y hx hy) ∧
     ((LittleEndian.from_native p w x hx).op_big p op
       (BigEndian.from_native p w y hy)).to_native p = prim_op op w x y) ∧
    ((BigEndian.from_native p w x hx).op_nat p op y hy
      = BigEndian.from_native p w (prim_op op w x y) (prim_op_lt op w x y hx hy) ∧
     ((BigEndian.from_native p w x hx).op_nat p op y hy).to_native p
       = prim_op op w x y) ∧
    ((LittleEndian.from_native p w x hx).op_nat p op y hy
      = LittleEndian.from_native p w (prim_op op w x y) (prim_op_lt op w x y hx hy) ∧
     ((LittleEndian.from_native p w x hx).op_nat p op y hy).to_native p
       = prim_op op w x y) ∧
    nat_op_big p op x (BigEndian.from_native p w y hy) = prim_op op w x y ∧
    nat_op_little p op x (LittleEndian.from_native p w y hy) = prim_op op w x y := by
  refine ⟨⟨?_, ?_⟩, ⟨?_, ?_⟩, ⟨?_, ?_⟩, ⟨?_, ?_⟩, ⟨?_, ?_⟩, ⟨?_, ?_⟩, ?_, ?_⟩
  · apply BigEndian.ext_val_big
    simp only [BigEndian.op_big, BigEndian.val_from_native_big,
      BigEndian.to_native_from_native_big]
  · simp only [BigEndian.op_big_to_native_big, BigEndian.to_native_from_native_big]
  · apply LittleEndian.ext_val_little
    simp only [LittleEndian.op_little, LittleEndian.val_from_native_little,
      LittleEndian.to_native_from_native_little]
  · simp only [LittleEndian.op_little_to_native_little, LittleEndian.to_native_from_native_little]
  · apply BigEndian.ext_val_big
    simp only [BigEndian.op_little, BigEndian.val_from_native_big,
      BigEndian.to_native_from_native_big, LittleEndian.to_native_from_native_little]
  · simp only [BigEndian.op_little_to_native_big, BigEndian.to_native_from_native_big,
      LittleEndian.to_native_from_native_little]
  · apply LittleEndian.ext_val_little
    simp only [LittleEndian.op_big, LittleEndian.val_from_native_little,
      LittleEndian.to_native_from_native_little, BigEndian.to_native_from_native_big]
  · simp only [LittleEndian.op_big_to_native_little, LittleEndian.to_native_from_native_little,
      BigEndian.to_native_from_native_big]
  · apply BigEndian.ext_val_big
    simp only [BigEndian.op_nat, BigEndian.val_from_native_big,
      BigEndian.to_native_from_native_big]
  · simp only [BigEndian.op_nat_to_native_big, BigEndian.to_native_from_native_big]
  · apply LittleEndian.ext_val_little
    simp only [LittleEndian.op_nat, LittleEndian.val_from_native_little,
      LittleEndian.to_native_from_native_little]
  · simp only [LittleEndian.op_nat_to_native_little, LittleEndian.to_native_from_native_little]
  · simp only [nat_op_big, BigEndian.to_native_from_native_big]
  · simp only [nat_op_little, LittleEndian.to_native_from_native_little]

/-- Witness for C2 at the spec's example: on a little-endian platform,
`(u32_le::from_native(3) + u32_be::from_native(4))` is stored little-endian
and decodes to `7`; a native left operand gives the bare native `7`. -/
theorem C2_operator_semantics_witness :
    ((LittleEndian.from_native .little 4 3 (by norm_num)).op_big .little .add
       (BigEndian.from_native .little 4 4 (by norm_num))).to_native .little = 7 ∧
    (LittleEndian.from_native .little 4 3 (by norm_num)).op_big .little .add
       (BigEndian.from_native .little 4 4 (by norm_num))
      = LittleEndian.from_native .little 4 7 (by norm_num) ∧
    nat_op_big .little .add 3 (BigEndian.from_native .little 4 4 (by norm_num)) = 7 ∧
    ((BigEndian.from_native .little 4 3 (by norm_num)).op_big .little .add
       (BigEndian.from_native .little 4 4 (by norm_num))).to_native .little = 7 := by
  obtain ⟨⟨_, hbb⟩, _, _, ⟨hlb1, hlb2⟩, _, _, hnb, _⟩ :=
    C2_operator_semantics .little .add 4 3 4 (by norm_num) (by norm_num)
  refine ⟨?_, ?_, ?_, ?_⟩
  · rw [hlb2]; decide
  · rw [hlb1]
    exact LittleEndian.from_native_congr_little .little (by decide) _ _
  · rw [hnb]; decide
  · rw [hbb]; decide

/-- C3: comparing a little-endian wrapper of `x` against a big-endian
wrapper of `y` — and every other pairing of wrapper/native operands — via
`eq` or `partial_cmp` yields exactly the primitive comparison of native `x`
against native `y`, with no re-encoding, for every width, both signednesses
and both platforms. -/
theorem C3_comparison_semantics (p : Endianness) (s : Signedness) (w x y : Nat)
    (hx : x < 256 ^ w) (hy : y < 256 ^ w) :
    ((LittleEndian.from_native p w x hx).eq_big p s (BigEndian.from_native p w y hy)
      = prim_eq s w x y ∧
     (BigEndian.from_native p w x hx).eq_little p s (LittleEndian.from_native p w y hy)
      = prim_eq s w x y ∧
     (LittleEndian.from_native p w x hx).eq_little p s (LittleEndian.from_native p w y hy)
      = prim_eq s w x y ∧
     (BigEndian.from_native p w x hx).eq_big p s (BigEndian.from_native p w y hy)
      = prim_eq s w x y ∧
     (BigEndian.from_native p w x hx).eq_nat p s y = prim_eq s w x y ∧
     nat_eq_big p s x (BigEndian.from_native p w y hy) = prim_eq s w x y ∧
     (LittleEndian.from_native p w x hx).eq_nat p s y = prim_eq s w x y ∧
     nat_eq_little p s x (LittleEndian.from_native p w y hy) = prim_eq s w x y) ∧
    ((LittleEndian.from_native p w x hx).pcmp_big p s (BigEndian.from_native p w y hy)
      = prim_pcmp s w x y ∧
     (BigEndian.from_native p w x hx).pcmp_little p s (LittleEndian.from_native p w y hy)
      = prim_pcmp s w x y ∧
     (LittleEndian.from_native p w x hx).pcmp_little p s (LittleEndian.from_native p w y hy)
      = prim_pcmp s w x y ∧
     (BigEndian.from_native p w x hx).pcmp_big p s (BigEndian.from_native p w y hy)
      = prim_pcmp s w x y ∧
     (BigEndian.from_native p w x hx).pcmp_nat p s y = prim_pcmp s w x y ∧
     nat_pcmp_big p s x (BigEndian.from_native p w y hy) = prim_pcmp s w x y ∧
     (LittleEndian.from_native p w x hx).pcmp_nat p s y = prim_pcmp s w x y ∧
     nat_pcmp_little p s x (LittleEndian.from_native p w y hy) = prim_pcmp s w x y) := by
  simp only [LittleEndian.eq_big, BigEndian.eq_little, LittleEndian.eq_little,
    BigEndian.eq_big, BigEndian.eq_nat, nat_eq_big, LittleEndian.eq_nat,
    nat_eq_little, LittleEndian.pcmp_big, BigEndian.pcmp_little,
    LittleEndian.pcmp_little, BigEndian.pcmp_big, BigEndian.pcmp_nat,
    nat_pcmp_big, LittleEndian.pcmp_nat, nat_pcmp_little,
    BigEndian.to_native_from_native_big, LittleEndian.to_native_from_native_little,
    and_self]

/-- Witness for C3 on a little-endian platform, signed 16-bit kind,
`x = 10`, `y = 0xFFFF` (i.e. `-1`): mixed comparisons yield `false` for
equality and `some .gt` (since `10 > -1`), exactly the primitive results. -/
theorem C3_comparison_semantics_witness :
    (LittleEndian.from_native .little 2 10 (by norm_num)).eq_big .little .signed
      (BigEndian.from_native .little 2 0xFFFF (by norm_num)) = false ∧
    (LittleEndian.from_native .little 2 10 (by norm_num)).pcmp_big .little .signed
      (BigEndian.from_native .little 2 0xFFFF (by norm_num)) = some .gt ∧
    (BigEndian.from_native .little 2 10 (by norm_num)).pcmp_nat .little .signed
      0xFFFF = some .gt ∧
    nat_eq_big .little .signed 10
      (BigEndian.from_native .little 2 0xFFFF (by norm_num)) = false := by
  obtain ⟨⟨he1, _, _, _, _, he6, _, _⟩, ⟨hc1, _, _, _, hc5, _, _, _⟩⟩ :=
    C3_comparison_semantics .little .signed 2 10 0xFFFF (by norm_num) (by norm_num)
  refine ⟨?_, ?_, ?_, ?_⟩
  · rw [he1]; decide
  · rw [hc1]; decide
  · rw [hc5]; decide
  · rw [he6]; decide

/-- C4: a wrapper built by `from_native` always stores the value encoded in
the wrapper's *declared* byte order (its raw memory bytes are the big-endian
digit sequence for `BigEndian`, the little-endian digit sequence for
`LittleEndian`, whatever the platform's native order is); concretely, for
32-bit `0xDEADBEEF` the big-endian wrapper's bytes read `DE AD BE EF`, the
little-endian wrapper's read `EF BE AD DE`, and `to_native` on both returns
`0xDEADBEEF`. -/
theorem C4_stored_in_declared_order (p : Endianness) (w x : Nat)
    (hx : x < 256 ^ w) :
    memBytes p w ((BigEndian.from_native p w x hx).val) = (leBytes w x).reverse ∧
    memBytes p w ((LittleEndian.from_native p w x hx).val) = leBytes w x ∧
    memBytes p 4 ((BigEndian.from_native p 4 0xDEADBEEF deadbeef_lt).val)
      = [0xDE, 0xAD, 0xBE, 0xEF] ∧
    memBytes p 4 ((LittleEndian.from_native p 4 0xDEADBEEF deadbeef_lt).val)
      = [0xEF, 0xBE, 0xAD, 0xDE] ∧
    (BigEndian.from_native p 4 0xDEADBEEF deadbeef_lt).to_native p = 0xDEADBEEF ∧
    (LittleEndian.from_native p 4 0xDEADBEEF deadbeef_lt).to_native p = 0xDEADBEEF := by
  refine ⟨?_, ?_, ?_, ?_, ?_, ?_⟩
  · cases p
    · exact leBytes_swap_bytes w x
    · rfl
  · cases p
    · rfl
    · show (leBytes w (swap_bytes w x)).reverse = leBytes w x
      rw [leBytes_swap_bytes, List.reverse_reverse]
  · cases p <;> decide
  · cases p <;> decide
  · cases p <;> decide
  · cases p <;> decide

/-- Witness for C4 on a big-endian platform at `w = 4`, `x = 0xDEADBEEF`. -/
theorem C4_stored_in_declared_order_witness :
    memBytes .big 4 ((BigEndian.from_native .big 4 0xDEADBEEF deadbeef_lt).val)
      = [0xDE, 0xAD, 0xBE, 0xEF] ∧
    memBytes .big 4 ((LittleEndian.from_native .big 4 0xDEADBEEF deadbeef_lt).val)
      = [0xEF, 0xBE, 0xAD, 0xDE] ∧
    (BigEndian.from_native .big 4 0xDEADBEEF deadbeef_lt).to_native .big
      = 0xDEADBEEF ∧
    (LittleEndian.from_native .big 4 0xDEADBEEF deadbeef_lt).to_native .big
      = 0xDEADBEEF := by
  obtain ⟨h1, h2, h3, h4, h5, h6⟩ :=
    C4_stored_in_declared_order .big 4 0xDEADBEEF deadbeef_lt
  exact ⟨h3, h4, h5, h6⟩

/-- C8: every operation of the embedding is a total Lean function over its
domain, and for `add`/`sub` the wrapper introduces no overflow policy of its
own: the decoded result is exactly the primitive type's wrapping result
modulo `256 ^ w`, for every operand pairing and both platforms. -/
theorem C8_wrapping_arithmetic (p : Endianness) (w x y : Nat)
    (hx : x < 256 ^ w) (hy : y < 256 ^ w) :
    (((BigEndian.from_native p w x hx).op_big p .add
        (BigEndian.from_native p w y hy)).to_native p = (x + y) % 256 ^ w ∧
     ((LittleEndian.from_native p w x hx).op_little p .add
        (LittleEndian.from_native p w y hy)).to_native p = (x + y) % 256 ^ w ∧
     ((BigEndian.from_native p w x hx).op_little p .add
        (LittleEndian.from_native p w y hy)).to_native p = (x + y) % 256 ^ w ∧
     ((LittleEndian.from_native p w x hx).op_big p .add
        (BigEndian.from_native p w y hy)).to_native p = (x + y) % 256 ^ w ∧
     ((BigEndian.from_native p w x hx).op_nat p .add y hy).to_native p
       = (x + y) % 256 ^ w ∧
     ((LittleEndian.from_native p w x hx).op_nat p .add y hy).to_native p
       = (x + y) % 256 ^ w ∧
     nat_op_big p .add x (BigEndian.from_native p w y hy) = (x + y) % 256 ^ w ∧
     nat_op_little p .add x (LittleEndian.from_native p w y hy)
       = (x + y) % 256 ^ w) ∧
    (((BigEndian.from_native p w x hx).op_big p .sub
        (BigEndian.from_native p w y hy)).to_native p
       = (x + 256 ^ w - y) % 256 ^ w ∧
     ((LittleEndian.from_native p w x hx).op_little p .sub
        (LittleEndian.from_native p w y hy)).to_native p
       = (x + 256 ^ w - y) % 256 ^ w ∧
     ((BigEndian.from_native p w x hx).op_little p .sub
        (LittleEndian.from_native p w y hy)).to_native p
       = (x + 256 ^ w - y) % 256 ^ w ∧
     ((LittleEndian.from_native p w x hx).op_big p .sub
        (BigEndian.from_native p w y hy)).to_native p
       = (x + 256 ^ w - y) % 256 ^ w ∧
     ((BigEndian.from_native p w x hx).op_nat p .sub y hy).to_native p
       = (x + 256 ^ w - y) % 256 ^ w ∧
     ((LittleEndian.from_native p w x hx).op_nat p .sub y hy).to_native p
       = (x + 256 ^ w - y) % 256 ^ w ∧
     nat_op_big p .sub x (BigEndian.from_native p w y hy)
       = (x + 256 ^ w - y) % 256 ^ w ∧
     nat_op_little p .sub x (LittleEndian.from_native p w y hy)
       = (x + 256 ^ w - y) % 256 ^ w) := by
  refine ⟨⟨?_, ?_, ?_, ?_, ?_, ?_, ?_, ?_⟩, ⟨?_, ?_, ?_, ?_, ?_, ?_, ?_, ?_⟩⟩ <;>
    simp only [BigEndian.op_big_to_native_big, BigEndian.op_little_to_native_big,
      BigEndian.op_nat_to_native_big, LittleEndian.op_little_to_native_little,
      LittleEndian.op_big_to_native_little, LittleEndian.op_nat_to_native_little,
      nat_op_big, nat_op_little, BigEndian.to_native_from_native_big,
      LittleEndian.to_native_from_native_little, prim_op]

/-- Witness for C8 at `w = 1`, `x = 200`, `y = 100`, little-endian platform:
`200 + 100` wraps to `44` and `10 - 20`-style underflow is captured by
`(200 + 256 - 100) % 256 = 100`. -/
theorem C8_wrapping_arithmetic_witness :
    (((BigEndian.from_native .little 1 200 (by norm_num)).op_big .little .add
        (BigEndian.from_native .little 1 100 (by norm_num))).to_native .little
      = 44) ∧
    ((LittleEndian.from_native .little 1 200 (by norm_num)).op_big .little .sub
        (BigEndian.from_native .little 1 100 (by norm_num))).to_native .little
      = 100 ∧
    nat_op_big .little .add 200
      (BigEndian.from_native .little 1 100 (by norm_num)) = 44 := by
  obtain ⟨⟨ha1, _, _, _, _, _, ha7, _⟩, ⟨_, _, _, hs4, _, _, _, _⟩⟩ :=
    C8_wrapping_arithmetic .little 1 200 100 (by norm_num) (by norm_num)
  refine ⟨?_, ?_, ?_⟩
  · rw [ha1]; decide
  · rw [hs4]; decide
  · rw [ha7]; decide

end Endiantype
